import Mathlib

/-!
# MPR121 capacitive touch driver (ESP32): register-level model

A shallow embedding of `main/mpr121.c` and of the interrupt bridge of
`main/main.c`.

* The I2C bus is an external collaborator.  It is represented by a
  `Transport`: a deterministic oracle that, given the history of bus
  operations issued so far and the next operation, yields the `esp_err_t`
  the ESP-IDF call returns (and, for a read, what it stored in the buffer).
  Every call appends to the history, so any finite sequence of answers is
  produced by some oracle.
* The driver state `Dev` is the recorded bus trace plus the time spent in
  `vTaskDelay`.
* `uint8_t` / `uint16_t` values are naturals; narrowing conversions are the
  explicit `u8` / `u16`.  A pointer argument is an `Option Nat`: `none` is
  `NULL`, `some v` is a valid pointer whose pointee currently holds `v`.
* `ESP_LOGx` output is not modelled.
-/

namespace MPR121

/-! ## Error codes (esp_err.h) -/

/-- The C type `esp_err_t` (an `int`). -/
abbrev esp_err_t := Int

abbrev ESP_OK : esp_err_t := 0
abbrev ESP_ERR_NO_MEM : esp_err_t := 0x101
abbrev ESP_ERR_INVALID_ARG : esp_err_t := 0x102

/-! ## Register map (mpr121.h) -/

abbrev MPR121_TOUCHSTATUS_L : Nat := 0x00
abbrev MPR121_TOUCHSTATUS_H : Nat := 0x01
abbrev MPR121_FILTDATA_0L : Nat := 0x04
abbrev MPR121_FILTDATA_PROXH : Nat := 0x1D
abbrev MPR121_BASELINE_0 : Nat := 0x1E
abbrev MPR121_BASELINE_11 : Nat := 0x29
abbrev MPR121_BASELINE_PROX : Nat := 0x2A
abbrev MPR121_MHDR : Nat := 0x2B
abbrev MPR121_NHDR : Nat := 0x2C
abbrev MPR121_NCLR : Nat := 0x2D
abbrev MPR121_FDLR : Nat := 0x2E
abbrev MPR121_MHDF : Nat := 0x2F
abbrev MPR121_NHDF : Nat := 0x30
abbrev MPR121_NCLF : Nat := 0x31
abbrev MPR121_FDLF : Nat := 0x32
abbrev MPR121_TOUCH_THRESH_0 : Nat := 0x41
abbrev MPR121_RELEASE_THRESH_0 : Nat := 0x42
abbrev MPR121_RELEASE_THRESH_11 : Nat := 0x58
abbrev MPR121_TOUCH_THRESH_PROX : Nat := 0x59
abbrev MPR121_RELEASE_THRESH_PROX : Nat := 0x5A
abbrev MPR121_FILT_CDT_CFG : Nat := 0x5D
abbrev MPR121_ELE_CFG : Nat := 0x5E
abbrev MPR121_SOFT_RESET : Nat := 0x80

/-- Interrupt pin number (main.c). -/
abbrev MPR121_INT_PIN : Nat := 4

/-! ## Machine integers and pointers -/

/-- Conversion of a C `int` expression to `uint8_t`. -/
def u8 (n : Nat) : Nat := n % 256

/-- Conversion of a C `int` expression to `uint16_t`. -/
def u16 (n : Nat) : Nat := n % 65536

/-- Content of the cell behind a pointer that is known to be valid. -/
def deref (p : Option Nat) : Nat := p.getD 0

/-! ## Bus transport and driver state -/

/-- One transaction on the I2C bus, as seen at register level. -/
inductive BusOp where
  | write (reg data : Nat)
  | read (reg : Nat)
  deriving DecidableEq, Repr

/-- The external I2C master driver.  Both functions receive the history of
operations issued before the call.  A read answers with the error code and
with the byte it stored in the receive buffer (`none`: buffer untouched). -/
structure Transport where
  i2c_master_multi_buffer_transmit : List BusOp → Nat → Nat → esp_err_t
  i2c_master_transmit_receive : List BusOp → Nat → esp_err_t × Option Nat

/-- Observable state of a driver run: the operations issued on the bus, in
order, and the milliseconds requested from `vTaskDelay`. -/
structure Dev where
  trace : List BusOp
  slept_ms : Nat
  deriving DecidableEq, Repr

/-- Blocking delay `vTaskDelay(pdMS_TO_TICKS(ms))`: no bus traffic. -/
def vTaskDelay (ms : Nat) (s : Dev) : Dev :=
  Dev.mk s.trace (s.slept_ms + ms)

/-- The macro `ESP_RETURN_ON_ERROR(x, tag, fmt)`: when `x` is not `ESP_OK`
the enclosing function returns that code at once, otherwise it goes on. -/
def ESP_RETURN_ON_ERROR (x : esp_err_t × Dev) (rest : Dev → esp_err_t × Dev) :
    esp_err_t × Dev :=
  if x.1 ≠ ESP_OK then (x.1, x.2) else rest x.2

/-! ## Static helpers (mpr121.c) -/

/-- Model of `mpr121_write_reg`: one two-byte transmit; the transport's code
is returned as is. -/
def mpr121_write_reg (T : Transport) (reg data : Nat) (s : Dev) : esp_err_t × Dev :=
  let err := T.i2c_master_multi_buffer_transmit s.trace reg data
  (err, Dev.mk (s.trace ++ [BusOp.write reg data]) s.slept_ms)

/-- Model of `mpr121_read_reg`: a `NULL` buffer is rejected without bus
traffic; otherwise one transmit-receive of a single byte.  Returns the error
code, the buffer after the call and the new state. -/
def mpr121_read_reg (T : Transport) (reg : Nat) (data : Option Nat) (s : Dev) :
    esp_err_t × Option Nat × Dev :=
  match data with
  | none => (ESP_ERR_INVALID_ARG, none, s)
  | some old =>
    let r := T.i2c_master_transmit_receive s.trace reg
    let buf := match r.2 with
      | none => old
      | some b => u8 b
    (r.1, some buf, Dev.mk (s.trace ++ [BusOp.read reg]) s.slept_ms)

/-! ## Public interface (mpr121.c) -/

/-- The loop `for (int i = 0; i < 12; i++)` of `mpr121_set_thresholds`; the
first argument counts the iterations still to run, the second is `i`. -/
def set_thresholds_loop (T : Transport) (touch release : Nat) :
    Nat → Nat → Dev → esp_err_t × Dev
  | 0, _, s => (ESP_OK, s)
  | n + 1, i, s =>
    ESP_RETURN_ON_ERROR
      (mpr121_write_reg T (u8 (MPR121_TOUCH_THRESH_0 + i * 2)) touch s) fun s1 =>
    ESP_RETURN_ON_ERROR
      (mpr121_write_reg T (u8 (MPR121_RELEASE_THRESH_0 + i * 2)) release s1) fun s2 =>
    set_thresholds_loop T touch release n (i + 1) s2

/-- Model of `mpr121_set_thresholds(touch, release)`. -/
def mpr121_set_thresholds (T : Transport) (touch release : Nat) (s : Dev) :
    esp_err_t × Dev :=
  if release ≥ touch then (ESP_ERR_INVALID_ARG, s)
  else set_thresholds_loop T touch release 12 0 s

/-- Model of `mpr121_init()`.  The local `tmp` is uninitialised in C; only
its address is used and its content is discarded. -/
def mpr121_init (T : Transport) (s : Dev) : esp_err_t × Dev :=
  let tmp : Option Nat := some 0
  -- Step 1: stop mode
  ESP_RETURN_ON_ERROR (mpr121_write_reg T MPR121_ELE_CFG 0x00 s) fun s =>
  let s := vTaskDelay 5 s
  -- Step 2: soft reset
  ESP_RETURN_ON_ERROR (mpr121_write_reg T MPR121_SOFT_RESET 0x63 s) fun s =>
  let s := vTaskDelay 5 s
  -- Step 3: baseline filter, rising
  ESP_RETURN_ON_ERROR (mpr121_write_reg T MPR121_MHDR 0x01 s) fun s =>
  ESP_RETURN_ON_ERROR (mpr121_write_reg T MPR121_NHDR 0x01 s) fun s =>
  ESP_RETURN_ON_ERROR (mpr121_write_reg T MPR121_NCLR 0x00 s) fun s =>
  ESP_RETURN_ON_ERROR (mpr121_write_reg T MPR121_FDLR 0x00 s) fun s =>
  -- Step 4: baseline filter, falling
  ESP_RETURN_ON_ERROR (mpr121_write_reg T MPR121_MHDF 0x01 s) fun s =>
  ESP_RETURN_ON_ERROR (mpr121_write_reg T MPR121_NHDF 0x01 s) fun s =>
  ESP_RETURN_ON_ERROR (mpr121_write_reg T MPR121_NCLF 0xFF s) fun s =>
  ESP_RETURN_ON_ERROR (mpr121_write_reg T MPR121_FDLF 0x02 s) fun s =>
  -- Step 5: thresholds
  ESP_RETURN_ON_ERROR (mpr121_set_thresholds T 0x0F 0x0A s) fun s =>
  -- Step 6: global filter configuration
  ESP_RETURN_ON_ERROR (mpr121_write_reg T MPR121_FILT_CDT_CFG 0x04 s) fun s =>
  -- Step 7: clear the pending interrupt by reading both status registers
  let rl := mpr121_read_reg T MPR121_TOUCHSTATUS_L tmp s
  ESP_RETURN_ON_ERROR (rl.1, rl.2.2) fun s =>
  let rh := mpr121_read_reg T MPR121_TOUCHSTATUS_H rl.2.1 s
  ESP_RETURN_ON_ERROR (rh.1, rh.2.2) fun s =>
  -- Step 8: enable the twelve electrodes
  ESP_RETURN_ON_ERROR (mpr121_write_reg T MPR121_ELE_CFG 0x0C s) fun s =>
  (ESP_OK, s)

/-- Model of `mpr121_read_touch(touch_status)`: error code, the cell behind
`touch_status` after the call, new state. -/
def mpr121_read_touch (T : Transport) (touch_status : Option Nat) (s : Dev) :
    esp_err_t × Option Nat × Dev :=
  match touch_status with
  | none => (ESP_ERR_INVALID_ARG, none, s)
  | some _ =>
    let touch_l : Option Nat := some 0
    let touch_h : Option Nat := some 0
    let rl := mpr121_read_reg T MPR121_TOUCHSTATUS_L touch_l s
    if rl.1 ≠ ESP_OK then (rl.1, touch_status, rl.2.2) else
    let rh := mpr121_read_reg T MPR121_TOUCHSTATUS_H touch_h rl.2.2
    if rh.1 ≠ ESP_OK then (rh.1, touch_status, rh.2.2) else
    (ESP_OK, some (u16 ((deref rh.2.1 <<< 8) ||| deref rl.2.1)), rh.2.2)

/-- Model of `mpr121_read_filtered(electrode, filtered_val)`. -/
def mpr121_read_filtered (T : Transport) (electrode : Nat) (filtered_val : Option Nat)
    (s : Dev) : esp_err_t × Option Nat × Dev :=
  match filtered_val with
  | none => (ESP_ERR_INVALID_ARG, none, s)
  | some _ =>
    if electrode > 11 then (ESP_ERR_INVALID_ARG, filtered_val, s) else
    let val_l : Option Nat := some 0
    let val_h : Option Nat := some 0
    let rl := mpr121_read_reg T (u8 (MPR121_FILTDATA_0L + electrode * 2)) val_l s
    if rl.1 ≠ ESP_OK then (rl.1, filtered_val, rl.2.2) else
    let rh := mpr121_read_reg T (u8 (MPR121_FILTDATA_0L + electrode * 2 + 1)) val_h rl.2.2
    if rh.1 ≠ ESP_OK then (rh.1, filtered_val, rh.2.2) else
    (ESP_OK, some (u16 ((deref rh.2.1 <<< 8) ||| deref rl.2.1)), rh.2.2)

/-- Model of `mpr121_read_baseline(electrode, baseline_val)`. -/
def mpr121_read_baseline (T : Transport) (electrode : Nat) (baseline_val : Option Nat)
    (s : Dev) : esp_err_t × Option Nat × Dev :=
  match baseline_val with
  | none => (ESP_ERR_INVALID_ARG, none, s)
  | some _ =>
    if electrode > 11 then (ESP_ERR_INVALID_ARG, baseline_val, s) else
    mpr121_read_reg T (u8 (MPR121_BASELINE_0 + electrode)) baseline_val s

/-! ## Auxiliary notions used in the statements -/

/-- A transport on which every operation succeeds and every read stores `b`. -/
def okTransport (b : Nat) : Transport :=
  Transport.mk (fun _ _ _ => ESP_OK) (fun _ _ => (ESP_OK, some b))

/-- The empty run: nothing issued, no delay yet. -/
def Dev.init : Dev := Dev.mk [] 0

/-- The code the transport gives to operation `op` issued after history `h`. -/
def answer (T : Transport) (h : List BusOp) : BusOp → esp_err_t
  | BusOp.write reg data => T.i2c_master_multi_buffer_transmit h reg data
  | BusOp.read reg => (T.i2c_master_transmit_receive h reg).1

/-- Issue the operations of a list one after the other, stopping right after
the first one that the transport does not answer with `ESP_OK`. -/
def issue (T : Transport) : List BusOp → List BusOp → esp_err_t × List BusOp
  | h, [] => (ESP_OK, h)
  | h, op :: rest =>
    if answer T h op ≠ ESP_OK then (answer T h op, h ++ [op])
    else issue T (h ++ [op]) rest

/-- Along the sequence `ops`, started after history `h`, the transport
answers `ESP_OK` to the operations at positions below `k` and answers `e` to
the operation at position `k` (positions count from 0). -/
def FailsFirstAt (T : Transport) (h ops : List BusOp) (k : Nat) (e : esp_err_t) : Prop :=
  (∀ j op, j < k → ops[j]? = some op → answer T (h ++ ops.take j) op = ESP_OK) ∧
  (∀ op, ops[k]? = some op → answer T (h ++ ops.take k) op = e)

/-- A transport that answers `e` to the operation issued after exactly `k`
earlier ones and `ESP_OK` to every other; reads store `0`. -/
def failAt (k : Nat) (e : esp_err_t) : Transport :=
  Transport.mk
    (fun h _ _ => if h.length = k then e else ESP_OK)
    (fun h _ => (if h.length = k then e else ESP_OK, some 0))

/-- A transport scripted by the register file `regs`: every operation
succeeds and a read of `reg` stores `regs reg`. -/
def regTransport (regs : Nat → Nat) : Transport :=
  Transport.mk (fun _ _ _ => ESP_OK) (fun _ reg => (ESP_OK, some (regs reg)))

def BusOp.isWrite : BusOp → Bool
  | BusOp.write _ _ => true
  | BusOp.read _ => false

def BusOp.isRead : BusOp → Bool
  | BusOp.write _ _ => false
  | BusOp.read _ => true

/-- Register address of a bus operation. -/
def BusOp.reg : BusOp → Nat
  | BusOp.write r _ => r
  | BusOp.read r => r

/-- Number of register writes in a trace. -/
def countWrites (l : List BusOp) : Nat := (l.filter BusOp.isWrite).length

/-- Position (from 0) in `ops` of its `N`-th write, `N` counted from 1. -/
def nthWritePos : List BusOp → Nat → Nat
  | [], _ => 0
  | op :: rest, N =>
    if op.isWrite then (if N ≤ 1 then 0 else 1 + nthWritePos rest (N - 1))
    else 1 + nthWritePos rest N

/-- The 24 threshold writes as the specification lists them: for electrode
`i = 0..11` in increasing order, the touch threshold at `0x41 + 2*i` directly
followed by the release threshold at `0x42 + 2*i`. -/
def thresholdWrites (touch release : Nat) : List BusOp :=
  (List.range 12).flatMap fun i =>
    [BusOp.write (0x41 + 2 * i) touch, BusOp.write (0x42 + 2 * i) release]

/-- The writes issued by `n` iterations of the threshold loop from index `i`. -/
def loopWrites (touch release : Nat) : Nat → Nat → List BusOp
  | 0, _ => []
  | n + 1, i =>
    BusOp.write (u8 (MPR121_TOUCH_THRESH_0 + i * 2)) touch ::
    BusOp.write (u8 (MPR121_RELEASE_THRESH_0 + i * 2)) release ::
    loopWrites touch release n (i + 1)

/-- The eight baseline-filter writes: rising-edge registers `0x2B..0x2E`,
then falling-edge registers `0x2F..0x32`. -/
def baselineFilterWrites : List BusOp :=
  [BusOp.write 0x2B 0x01, BusOp.write 0x2C 0x01, BusOp.write 0x2D 0x00, BusOp.write 0x2E 0x00,
   BusOp.write 0x2F 0x01, BusOp.write 0x30 0x01, BusOp.write 0x31 0xFF, BusOp.write 0x32 0x02]

/-- The bus operations of a fully successful initialisation, in order. -/
def initBus : List BusOp :=
  [BusOp.write 0x5E 0x00, BusOp.write 0x80 0x63]
    ++ baselineFilterWrites
    ++ thresholdWrites 0x0F 0x0A
    ++ [BusOp.write 0x5D 0x04, BusOp.read 0x00, BusOp.read 0x01, BusOp.write 0x5E 0x0C]

/-- The outcome `r` of some code started after history `h` is what issuing
`ops` up to the first failure gives: same return code, same trace. -/
def Follows (T : Transport) (h : List BusOp) (r : esp_err_t × Dev) (ops : List BusOp) : Prop :=
  r.1 = (issue T h ops).1 ∧ r.2.trace = (issue T h ops).2

/-- A function on driver states issues exactly the operations `ops`, up to
the first failure. -/
def Issues (T : Transport) (f : Dev → esp_err_t × Dev) (ops : List BusOp) : Prop :=
  ∀ s, Follows T s.trace (f s) ops

/-- The transport answers `ESP_OK` to every operation of `ops`, issued in
order after history `h`. -/
def AllOk (T : Transport) (h ops : List BusOp) : Prop :=
  ∀ j op, ops[j]? = some op → answer T (h ++ ops.take j) op = ESP_OK

/-! ## Interrupt bridge (main.c) -/

/-- State of the binary semaphore `mpr121_semaphore`. -/
inductive WakeToken where
  | Empty
  | Signaled
  deriving DecidableEq, Repr

/-- Modelled from the spec: the FreeRTOS call `xSemaphoreCreateBinary` is not
part of the sources; the WakeToken is a single-slot signal that starts empty,
and creation yields `NULL` (`none`) when no memory is left. -/
def xSemaphoreCreateBinary (heap_ok : Bool) : Option WakeToken :=
  if heap_ok then some WakeToken.Empty else none

/-- Modelled from the spec: the FreeRTOS call `xSemaphoreGiveFromISR` is not
part of the sources; producing moves `Empty` to `Signaled` and is a no-op on a
token that is already `Signaled` (no queueing).  The flag tells whether the
token was actually given. -/
def xSemaphoreGiveFromISR : WakeToken → Bool × WakeToken
  | WakeToken.Empty => (true, WakeToken.Signaled)
  | WakeToken.Signaled => (false, WakeToken.Signaled)

/-- Modelled from the spec: the FreeRTOS call `xSemaphoreTake` is not part of
the sources; the consumer moves `Signaled` to `Empty` and is woken (`true`);
on an `Empty` token there is nothing to take and the worker stays blocked
(`false`). -/
def xSemaphoreTake : WakeToken → Bool × WakeToken
  | WakeToken.Signaled => (true, WakeToken.Empty)
  | WakeToken.Empty => (false, WakeToken.Empty)

/-- Model of the part of `mpr121_irq_init` that sets up the token:
`isr_add` is the code returned by `gpio_isr_handler_add`; the global
`mpr121_semaphore` is `NULL` before.  Returns the code and the global. -/
def mpr121_irq_init (isr_add : esp_err_t) (heap_ok : Bool) : esp_err_t × Option WakeToken :=
  if isr_add ≠ ESP_OK then (isr_add, none) else
  match xSemaphoreCreateBinary heap_ok with
  | none => (ESP_ERR_NO_MEM, none)
  | some t => (ESP_OK, some t)

/-- Model of `mpr121_irq_handler(arg)`; `level` is what `gpio_get_level`
returns for the interrupt pin and the last argument is the global
`mpr121_semaphore` (`none`: still `NULL`).  Returns the global afterwards. -/
def mpr121_irq_handler (arg : Nat) (level : Nat) (mpr121_semaphore : Option WakeToken) :
    Option WakeToken :=
  let gpio_num := arg % 2 ^ 32
  if gpio_num = MPR121_INT_PIN ∧ level = 0 then
    match mpr121_semaphore with
    | some t => some (xSemaphoreGiveFromISR t).2
    | none => none
  else mpr121_semaphore

/-! ## Lemmas on sequential issue -/

theorem issue_append (T : Transport) (a b : List BusOp) :
    ∀ h, issue T h (a ++ b) =
      if (issue T h a).1 ≠ ESP_OK then issue T h a else issue T (issue T h a).2 b := by
  induction a with
  | nil => intro h; simp [issue]
  | cons op rest ih =>
    intro h
    by_cases hc : answer T h op = ESP_OK
    · simp [issue, hc, ih]
    · simp [issue, hc]

theorem failsFirstAt_tail (T : Transport) (h rest : List BusOp) (op : BusOp) (k : Nat)
    (e : esp_err_t) (hf : FailsFirstAt T h (op :: rest) (k + 1) e) :
    FailsFirstAt T (h ++ [op]) rest k e := by
  constructor
  · intro j o hj ho
    have := hf.1 (j + 1) o (by omega) (by simpa using ho)
    simpa using this
  · intro o ho
    have := hf.2 o (by simpa using ho)
    simpa using this

theorem issue_first_failure (T : Transport) (e : esp_err_t) (he : e ≠ ESP_OK) :
    ∀ (ops h : List BusOp) (k : Nat), k < ops.length → FailsFirstAt T h ops k e →
      issue T h ops = (e, h ++ ops.take (k + 1)) := by
  intro ops
  induction ops with
  | nil => intro h k hk; simp at hk
  | cons op rest ih =>
    intro h k hk hf
    cases k with
    | zero =>
      have h0 : answer T h op = e := by simpa using hf.2 op (by simp)
      simp [issue, h0, he]
    | succ k =>
      have h0 : answer T h op = ESP_OK := by simpa using hf.1 0 op (by omega) (by simp)
      have hk2 : k < rest.length := by simpa using hk
      have := ih (h ++ [op]) k hk2 (failsFirstAt_tail T h rest op k e hf)
      simp [issue, h0, this]

theorem issue_all_ok (T : Transport) :
    ∀ (ops h : List BusOp),
      (∀ j op, ops[j]? = some op → answer T (h ++ ops.take j) op = ESP_OK) →
      issue T h ops = (ESP_OK, h ++ ops) := by
  intro ops
  induction ops with
  | nil => intro h _; simp [issue]
  | cons op rest ih =>
    intro h hok
    have h0 : answer T h op = ESP_OK := by simpa using hok 0 op (by simp)
    have := ih (h ++ [op]) (by
      intro j o ho
      have := hok (j + 1) o (by simpa using ho)
      simpa using this)
    simp [issue, h0, this]

theorem Issues.ret (T : Transport) : Issues T (fun s => (ESP_OK, s)) [] := by
  intro s; simp [Follows, issue]

theorem Issues.write (T : Transport) (reg data : Nat) :
    Issues T (mpr121_write_reg T reg data) [BusOp.write reg data] := by
  intro s
  by_cases hc : T.i2c_master_multi_buffer_transmit s.trace reg data = ESP_OK
  · simp [Follows, issue, answer, mpr121_write_reg, hc]
  · simp [Follows, issue, answer, mpr121_write_reg, hc]

theorem Follows.read (T : Transport) (reg buf : Nat) (s : Dev) :
    Follows T s.trace ((mpr121_read_reg T reg (some buf) s).1,
      (mpr121_read_reg T reg (some buf) s).2.2) [BusOp.read reg] := by
  by_cases hc : (T.i2c_master_transmit_receive s.trace reg).1 = ESP_OK
  · simp [Follows, issue, answer, mpr121_read_reg, hc]
  · simp [Follows, issue, answer, mpr121_read_reg, hc]

theorem Follows.seq (T : Transport) (h a b : List BusOp) (x : esp_err_t × Dev)
    (g : Dev → esp_err_t × Dev) (hx : Follows T h x a) (hg : Issues T g b) :
    Follows T h (ESP_RETURN_ON_ERROR x g) (a ++ b) := by
  have h2 := hg x.2
  unfold Follows at *
  by_cases hc : x.1 = ESP_OK
  · have hc2 : (issue T h a).1 = ESP_OK := by rw [← hx.1]; exact hc
    simp only [ESP_RETURN_ON_ERROR, issue_append, hc, hc2, ne_eq, not_true_eq_false, if_false]
    rw [← hx.2]; exact h2
  · have hc2 : ¬ (issue T h a).1 = ESP_OK := by rw [← hx.1]; exact hc
    simp only [ESP_RETURN_ON_ERROR, issue_append, hc, hc2, ne_eq, not_false_eq_true, if_true]
    exact hx

theorem Issues.loop (T : Transport) (touch release : Nat) :
    ∀ n i, Issues T (set_thresholds_loop T touch release n i)
      (loopWrites touch release n i) := by
  intro n
  induction n with
  | zero => intro i; exact Issues.ret T
  | succ n ih =>
    intro i s
    refine Follows.seq T _ [_] (_ :: _) _ _ (Issues.write T _ _ s) fun s1 => ?_
    exact Follows.seq T _ [_] _ _ _ (Issues.write T _ _ s1) (ih (i + 1))

theorem loopWrites_eq (touch release : Nat) :
    loopWrites touch release 12 0 = thresholdWrites touch release := rfl

theorem Issues.set_thresholds (T : Transport) (touch release : Nat) (hlt : release < touch) :
    Issues T (mpr121_set_thresholds T touch release) (thresholdWrites touch release) := by
  intro s
  have := Issues.loop T touch release 12 0 s
  rw [loopWrites_eq] at this
  simpa [mpr121_set_thresholds, Nat.not_le.mpr hlt] using this

theorem Issues.init (T : Transport) : Issues T (mpr121_init T) initBus := by
  have key : Issues T (mpr121_init T)
      ([BusOp.write 0x5E 0x00] ++ ([BusOp.write 0x80 0x63] ++
        ([BusOp.write 0x2B 0x01] ++ ([BusOp.write 0x2C 0x01] ++
        ([BusOp.write 0x2D 0x00] ++ ([BusOp.write 0x2E 0x00] ++
        ([BusOp.write 0x2F 0x01] ++ ([BusOp.write 0x30 0x01] ++
        ([BusOp.write 0x31 0xFF] ++ ([BusOp.write 0x32 0x02] ++
        (thresholdWrites 0x0F 0x0A ++ ([BusOp.write 0x5D 0x04] ++
        ([BusOp.read 0x00] ++ ([BusOp.read 0x01] ++
        ([BusOp.write 0x5E 0x0C] ++ []))))))))))))))) := by
    intro s
    refine Follows.seq T _ _ _ _ _ (Issues.write T _ _ s) fun s => ?_
    refine Follows.seq T _ _ _ _ _ (Issues.write T _ _ (vTaskDelay 5 s)) fun s => ?_
    refine Follows.seq T _ _ _ _ _ (Issues.write T _ _ (vTaskDelay 5 s)) fun s => ?_
    refine Follows.seq T _ _ _ _ _ (Issues.write T _ _ s) fun s => ?_
    refine Follows.seq T _ _ _ _ _ (Issues.write T _ _ s) fun s => ?_
    refine Follows.seq T _ _ _ _ _ (Issues.write T _ _ s) fun s => ?_
    refine Follows.seq T _ _ _ _ _ (Issues.write T _ _ s) fun s => ?_
    refine Follows.seq T _ _ _ _ _ (Issues.write T _ _ s) fun s => ?_
    refine Follows.seq T _ _ _ _ _ (Issues.write T _ _ s) fun s => ?_
    refine Follows.seq T _ _ _ _ _ (Issues.write T _ _ s) fun s => ?_
    refine Follows.seq T _ _ _ _ _ (Issues.set_thresholds T _ _ (by decide) s) fun s => ?_
    refine Follows.seq T _ _ _ _ _ (Issues.write T _ _ s) fun s => ?_
    refine Follows.seq T _ _ _ _ _ (Follows.read T _ _ s) fun s => ?_
    refine Follows.seq T _ _ _ _ _ (Follows.read T _ _ s) fun s => ?_
    refine Follows.seq T _ _ _ _ _ (Issues.write T _ _ s) fun s => ?_
    exact Issues.ret T s
  exact key

theorem loop_slept (T : Transport) (touch release : Nat) :
    ∀ n i s, (set_thresholds_loop T touch release n i s).2.slept_ms = s.slept_ms := by
  intro n
  induction n with
  | zero => intro i s; rfl
  | succ n ih =>
    intro i s
    simp only [set_thresholds_loop, ESP_RETURN_ON_ERROR, mpr121_write_reg]
    split
    · rfl
    · split
      · rfl
      · rw [ih]

theorem set_thresholds_slept (T : Transport) (touch release : Nat) (s : Dev) :
    (mpr121_set_thresholds T touch release s).2.slept_ms = s.slept_ms := by
  unfold mpr121_set_thresholds
  split
  · rfl
  · exact loop_slept T touch release 12 0 s

theorem shl8_or (high low : Nat) (h : low < 256) :
    (high <<< 8) ||| low = 256 * high + low := by
  rw [Nat.shiftLeft_eq, Nat.mul_comm]
  exact (Nat.mul_add_lt_is_or (i := 8) h high).symm

theorem u16_bytes (high low : Nat) (hh : high < 256) (hl : low < 256) :
    u16 ((high <<< 8) ||| low) = (high <<< 8) ||| low := by
  rw [shl8_or high low hl]
  unfold u16
  omega

theorem failAt_failsFirstAt (k : Nat) (e : esp_err_t) (ops : List BusOp) (hk : k < ops.length) :
    FailsFirstAt (failAt k e) [] ops k e := by
  constructor
  · intro j op hj _
    have hl : (List.take j ops).length ≠ k := by
      rw [List.length_take]; omega
    cases op <;> simp only [answer, failAt, List.nil_append, if_neg hl]
  · intro op _
    have hl : (List.take k ops).length = k := by
      rw [List.length_take]; omega
    cases op <;> simp only [answer, failAt, List.nil_append, if_pos hl]

theorem okTransport_allOk (b : Nat) (h ops : List BusOp) : AllOk (okTransport b) h ops := by
  intro j op _
  cases op <;> rfl

theorem regTransport_allOk (regs : Nat → Nat) (h ops : List BusOp) :
    AllOk (regTransport regs) h ops := by
  intro j op _
  cases op <;> rfl

theorem initBus_pos_facts (N : Nat) (h1 : 1 ≤ N) (h36 : N ≤ 36) :
    nthWritePos initBus N < initBus.length ∧
    countWrites (initBus.take (nthWritePos initBus N + 1)) = N ∧
    (∃ reg data, (initBus.take (nthWritePos initBus N + 1)).getLast?
      = some (BusOp.write reg data)) ∧
    (BusOp.write MPR121_ELE_CFG 0x0C ∈ initBus.take (nthWritePos initBus N + 1) → N = 36) := by
  interval_cases N <;>
    exact ⟨by decide, by decide, ⟨_, _, rfl⟩, by decide⟩

/-! ## Theorems -/

/-- C1: whenever `release >= touch`, `mpr121_set_thresholds` returns
`ESP_ERR_INVALID_ARG` and the state (bus trace included) is unchanged, so no
register write is issued. -/
theorem set_thresholds_rejects_unordered (T : Transport) (touch release : Nat) (s : Dev)
    (h : release ≥ touch) :
    mpr121_set_thresholds T touch release s = (ESP_ERR_INVALID_ARG, s) := by
  simp [mpr121_set_thresholds, h]

theorem set_thresholds_rejects_unordered_witness :
    (10 : Nat) ≥ 10 ∧
    mpr121_set_thresholds (okTransport 0) 10 10 Dev.init = (ESP_ERR_INVALID_ARG, Dev.init) :=
  ⟨by decide, set_thresholds_rejects_unordered (okTransport 0) 10 10 Dev.init (by decide)⟩

/-- C2: for an electrode number above 11, `mpr121_read_filtered` and
`mpr121_read_baseline` both return `ESP_ERR_INVALID_ARG`, leave the state (bus
trace included) unchanged, so no register is read, and leave the output cell
as it was. -/
theorem read_rejects_bad_electrode (T : Transport) (electrode : Nat) (out : Option Nat)
    (s : Dev) (h : electrode > 11) :
    mpr121_read_filtered T electrode out s = (ESP_ERR_INVALID_ARG, out, s) ∧
    mpr121_read_baseline T electrode out s = (ESP_ERR_INVALID_ARG, out, s) := by
  cases out <;> simp [mpr121_read_filtered, mpr121_read_baseline, h]

theorem read_rejects_bad_electrode_witness :
    (12 : Nat) > 11 ∧
    mpr121_read_filtered (okTransport 7) 12 (some 99) Dev.init
      = (ESP_ERR_INVALID_ARG, some 99, Dev.init) ∧
    mpr121_read_baseline (okTransport 7) 12 (some 99) Dev.init
      = (ESP_ERR_INVALID_ARG, some 99, Dev.init) :=
  ⟨by decide, read_rejects_bad_electrode (okTransport 7) 12 (some 99) Dev.init (by decide)⟩

/-- C3: when the transport answers `ESP_OK` to every operation of the
initialisation sequence, `mpr121_init` returns `ESP_OK` and the operations it
adds to the bus trace are exactly `initBus`: write 0x5E=0x00, write 0x80=0x63,
the eight baseline-filter writes (0x2B..0x2E, then 0x2F..0x32), the 24
threshold writes with touch 0x0F and release 0x0A, the filter-configuration
write to 0x5D, the reads of 0x00 and 0x01, and write 0x5E=0x0C last.  The only
reads of the trace are those two, in that order; they sit right after the 0x5D
write and right before the final write, and everything before is a write. -/
theorem init_success_trace (T : Transport) (s : Dev) (hok : AllOk T s.trace initBus) :
    (mpr121_init T s).1 = ESP_OK ∧
    (mpr121_init T s).2.trace = s.trace ++ initBus ∧
    initBus.length = 38 ∧
    initBus.take 10 = [BusOp.write 0x5E 0x00, BusOp.write 0x80 0x63] ++ baselineFilterWrites ∧
    (initBus.drop 10).take 24 = thresholdWrites 0x0F 0x0A ∧
    initBus.drop 34 = [BusOp.write 0x5D 0x04, BusOp.read MPR121_TOUCHSTATUS_L,
      BusOp.read MPR121_TOUCHSTATUS_H, BusOp.write 0x5E 0x0C] ∧
    initBus.filter BusOp.isRead = [BusOp.read 0x00, BusOp.read 0x01] ∧
    (∀ op ∈ initBus.take 34, op.isWrite = true ∧ op.reg ≠ 0x5D) := by
  have h := Issues.init T s
  unfold Follows at h
  rw [issue_all_ok T initBus s.trace hok] at h
  exact ⟨h.1, h.2, by decide, by decide, by decide, by decide, by decide, by decide⟩

theorem init_success_trace_witness :
    AllOk (okTransport 0) Dev.init.trace initBus ∧
    (mpr121_init (okTransport 0) Dev.init).1 = ESP_OK ∧
    (mpr121_init (okTransport 0) Dev.init).2.trace = Dev.init.trace ++ initBus :=
  ⟨okTransport_allOk 0 _ _,
   (init_success_trace (okTransport 0) Dev.init (okTransport_allOk 0 _ _)).1,
   (init_success_trace (okTransport 0) Dev.init (okTransport_allOk 0 _ _)).2.1⟩

/-- C4: let `e` be a transport error.  If, along the initialisation sequence,
the `N`-th write (`N` in 1..36) is the first operation the transport does not
answer with `ESP_OK` and it answers `e`, then `mpr121_init` returns `e` and
the operations added to the trace are the sequence up to and including that
write: they contain exactly `N` writes, the last one being the failed write,
and the final write 0x5E=0x0C is among them only when `N = 36`.  Likewise, if
the first failing operation is the read of status register 0x00 or 0x01
(positions 35 and 36 of the sequence), `mpr121_init` returns `e`, the trace
ends with that read and the final write is not issued. -/
theorem init_aborts_on_first_failure (T : Transport) (s : Dev) (e : esp_err_t)
    (he : e ≠ ESP_OK) :
    (∀ N, 1 ≤ N → N ≤ 36 →
      FailsFirstAt T s.trace initBus (nthWritePos initBus N) e →
        (mpr121_init T s).1 = e ∧
        (mpr121_init T s).2.trace = s.trace ++ initBus.take (nthWritePos initBus N + 1) ∧
        countWrites (initBus.take (nthWritePos initBus N + 1)) = N ∧
        (∃ reg data, (initBus.take (nthWritePos initBus N + 1)).getLast?
          = some (BusOp.write reg data)) ∧
        (BusOp.write MPR121_ELE_CFG 0x0C ∈ initBus.take (nthWritePos initBus N + 1)
          → N = 36)) ∧
    (∀ i, i < 2 →
      FailsFirstAt T s.trace initBus (35 + i) e →
        (mpr121_init T s).1 = e ∧
        (mpr121_init T s).2.trace = s.trace ++ initBus.take (35 + i + 1) ∧
        (initBus.take (35 + i + 1)).getLast? = some (BusOp.read i) ∧
        BusOp.write MPR121_ELE_CFG 0x0C ∉ initBus.take (35 + i + 1)) := by
  constructor
  · intro N h1 h36 hf
    obtain ⟨hpos, hcnt, hlast, hfin⟩ := initBus_pos_facts N h1 h36
    have h := Issues.init T s
    unfold Follows at h
    rw [issue_first_failure T e he initBus s.trace _ hpos hf] at h
    exact ⟨h.1, h.2, hcnt, hlast, hfin⟩
  · intro i hi hf
    have hpos : 35 + i < initBus.length := by
      have : initBus.length = 38 := by decide
      omega
    have h := Issues.init T s
    unfold Follows at h
    rw [issue_first_failure T e he initBus s.trace _ hpos hf] at h
    refine ⟨h.1, h.2, ?_, ?_⟩
    · interval_cases i <;> decide
    · interval_cases i <;> decide

theorem init_aborts_on_first_failure_witness :
    ((mpr121_init (failAt 5 (-1)) Dev.init).1 = -1 ∧
      (mpr121_init (failAt 5 (-1)) Dev.init).2.trace
        = [BusOp.write 0x5E 0x00, BusOp.write 0x80 0x63, BusOp.write 0x2B 0x01,
           BusOp.write 0x2C 0x01, BusOp.write 0x2D 0x00, BusOp.write 0x2E 0x00]) ∧
    ((mpr121_init (failAt 36 (-1)) Dev.init).1 = -1 ∧
      (mpr121_init (failAt 36 (-1)) Dev.init).2.trace = initBus.take 37) :=
  ⟨by
    have h := (init_aborts_on_first_failure (failAt 5 (-1)) Dev.init (-1) (by decide)).1 6
      (by decide) (by decide) (failAt_failsFirstAt 5 (-1) initBus (by decide))
    exact ⟨h.1, h.2.1⟩,
   by
    have h := (init_aborts_on_first_failure (failAt 36 (-1)) Dev.init (-1) (by decide)).2 1
      (by decide) (failAt_failsFirstAt 36 (-1) initBus (by decide))
    exact ⟨h.1, h.2.1⟩⟩

/-- C5: if the read of register 0x00 succeeds with byte `low` and the
following read of register 0x01 succeeds with byte `high`, then
`mpr121_read_touch` returns `ESP_OK`, performs exactly those two reads, 0x00
first and 0x01 second, and stores `(high << 8) | low`.  Nothing is masked:
bits 12..15 of the result are bits 4..7 of `high` and the low 12 bits are
those of the two bytes. -/
theorem read_touch_combines (T : Transport) (s : Dev) (old low high : Nat)
    (hlow : low < 256) (hhigh : high < 256)
    (hl : T.i2c_master_transmit_receive s.trace MPR121_TOUCHSTATUS_L = (ESP_OK, some low))
    (hh : T.i2c_master_transmit_receive (s.trace ++ [BusOp.read MPR121_TOUCHSTATUS_L])
            MPR121_TOUCHSTATUS_H = (ESP_OK, some high)) :
    mpr121_read_touch T (some old) s =
      (ESP_OK, some ((high <<< 8) ||| low),
        Dev.mk (s.trace ++ [BusOp.read 0x00, BusOp.read 0x01]) s.slept_ms) ∧
    ((high <<< 8) ||| low) / 4096 = high / 16 ∧
    ((high <<< 8) ||| low) % 4096 = 256 * (high % 16) + low := by
  have hu := u16_bytes high low hhigh hlow
  have hml : u8 low = low := Nat.mod_eq_of_lt hlow
  have hmh : u8 high = high := Nat.mod_eq_of_lt hhigh
  refine ⟨?_, ?_, ?_⟩
  · simp [mpr121_read_touch, mpr121_read_reg, hl, hh, deref, hml, hmh, hu]
  · rw [shl8_or high low hlow]; omega
  · rw [shl8_or high low hlow]; omega

theorem read_touch_combines_witness :
    mpr121_read_touch (regTransport fun r => if r = 0 then 0xFF else 0x0F) (some 0) Dev.init =
      (ESP_OK, some 0x0FFF, Dev.mk [BusOp.read 0x00, BusOp.read 0x01] 0) :=
  (read_touch_combines (regTransport fun r => if r = 0 then 0xFF else 0x0F) Dev.init 0 0xFF 0x0F
    (by decide) (by decide) rfl rfl).1

/-- C6: for an electrode `e` in 0..11, if the read of register `0x04 + 2*e`
succeeds with byte `low` and the following read of register `0x05 + 2*e`
succeeds with byte `high`, then `mpr121_read_filtered` returns `ESP_OK`,
performs exactly those two reads in that order, both inside the filtered-data
zone 0x04..0x1D, and stores the unmasked `(high << 8) | low`. -/
theorem read_filtered_combines (T : Transport) (s : Dev) (e old low high : Nat)
    (he : e ≤ 11) (hlow : low < 256) (hhigh : high < 256)
    (hl : T.i2c_master_transmit_receive s.trace (0x04 + 2 * e) = (ESP_OK, some low))
    (hh : T.i2c_master_transmit_receive (s.trace ++ [BusOp.read (0x04 + 2 * e)])
            (0x05 + 2 * e) = (ESP_OK, some high)) :
    mpr121_read_filtered T e (some old) s =
      (ESP_OK, some ((high <<< 8) ||| low),
        Dev.mk (s.trace ++ [BusOp.read (0x04 + 2 * e), BusOp.read (0x05 + 2 * e)])
          s.slept_ms) ∧
    (MPR121_FILTDATA_0L ≤ 0x04 + 2 * e ∧ 0x05 + 2 * e ≤ MPR121_FILTDATA_PROXH) ∧
    ((high <<< 8) ||| low) / 1024 = high / 4 := by
  have hu := u16_bytes high low hhigh hlow
  have hml : u8 low = low := Nat.mod_eq_of_lt hlow
  have hmh : u8 high = high := Nat.mod_eq_of_lt hhigh
  have ha : u8 (MPR121_FILTDATA_0L + e * 2) = 0x04 + 2 * e := by
    unfold u8 MPR121_FILTDATA_0L; omega
  have hb : u8 (MPR121_FILTDATA_0L + e * 2 + 1) = 0x05 + 2 * e := by
    unfold u8 MPR121_FILTDATA_0L; omega
  have hne : ¬ e > 11 := by omega
  refine ⟨?_, ⟨by unfold MPR121_FILTDATA_0L; omega,
    by unfold MPR121_FILTDATA_PROXH; omega⟩, ?_⟩
  · simp only [mpr121_read_filtered, if_neg hne, ha, hb]
    simp [mpr121_read_reg, hl, hh, deref, hml, hmh, hu]
  · rw [shl8_or high low hlow]; omega

theorem read_filtered_combines_witness :
    mpr121_read_filtered (regTransport fun r => if r = 0x0A then 0xCD else 0x02) 3 (some 0)
        Dev.init =
      (ESP_OK, some 0x02CD, Dev.mk [BusOp.read 0x0A, BusOp.read 0x0B] 0) :=
  (read_filtered_combines (regTransport fun r => if r = 0x0A then 0xCD else 0x02) Dev.init
    3 0 0xCD 0x02 (by decide) (by decide) (by decide) rfl rfl).1

/-- C7: for `release < touch` and a transport that answers `ESP_OK` to each
of the threshold writes, `mpr121_set_thresholds` returns `ESP_OK` and adds to
the trace exactly the 24 writes of `thresholdWrites`, no read: for
`i = 0..11` in increasing order, `(0x41 + 2*i, touch)` at position `2*i`
directly followed by `(0x42 + 2*i, release)`.  Every written address lies in
0x41..0x58, hence inside the threshold zone 0x41..0x5A, and the proximity
thresholds 0x59 and 0x5A are not written. -/
theorem set_thresholds_writes (T : Transport) (touch release : Nat) (s : Dev)
    (hlt : release < touch) (hok : AllOk T s.trace (thresholdWrites touch release)) :
    mpr121_set_thresholds T touch release s =
      (ESP_OK, Dev.mk (s.trace ++ thresholdWrites touch release) s.slept_ms) ∧
    (thresholdWrites touch release).length = 24 ∧
    (∀ i, i < 12 →
      (thresholdWrites touch release)[2 * i]? = some (BusOp.write (0x41 + 2 * i) touch) ∧
      (thresholdWrites touch release)[2 * i + 1]? = some (BusOp.write (0x42 + 2 * i) release)) ∧
    (∀ op ∈ thresholdWrites touch release,
      op.isWrite = true ∧ MPR121_TOUCH_THRESH_0 ≤ op.reg ∧ op.reg ≤ MPR121_RELEASE_THRESH_11 ∧
      op.reg ≠ MPR121_TOUCH_THRESH_PROX ∧ op.reg ≠ MPR121_RELEASE_THRESH_PROX) := by
  have h := Issues.set_thresholds T touch release hlt s
  unfold Follows at h
  rw [issue_all_ok T _ s.trace hok] at h
  have hs := set_thresholds_slept T touch release s
  refine ⟨?_, rfl, ?_, ?_⟩
  · apply Prod.ext
    · exact h.1
    · cases hr : (mpr121_set_thresholds T touch release s).2 with
      | mk tr sl =>
        rw [hr] at h hs
        simp only at h hs
        simp only [h.2, hs]
  · intro i hi
    interval_cases i <;> exact ⟨rfl, rfl⟩
  · intro op hop
    simp only [thresholdWrites, List.mem_flatMap, List.mem_range, List.mem_cons,
      List.mem_singleton, List.not_mem_nil, or_false] at hop
    obtain ⟨i, hi, hop⟩ := hop
    rcases hop with rfl | rfl <;>
      simp only [BusOp.isWrite, BusOp.reg, MPR121_TOUCH_THRESH_0, MPR121_RELEASE_THRESH_11,
        MPR121_TOUCH_THRESH_PROX, MPR121_RELEASE_THRESH_PROX, ne_eq, true_and] <;>
      omega

theorem set_thresholds_writes_witness :
    mpr121_set_thresholds (okTransport 0) 0x0F 0x0A Dev.init =
      (ESP_OK, Dev.mk (thresholdWrites 0x0F 0x0A) 0) :=
  (set_thresholds_writes (okTransport 0) 0x0F 0x0A Dev.init (by decide)
    (okTransport_allOk 0 _ _)).1

/-- C8: for `release < touch`, `k` in 1..24 and a transport error `e`: if the
`k`-th threshold write is the first one the transport does not answer with
`ESP_OK` and it answers `e`, then `mpr121_set_thresholds` returns `e` and the
state afterwards has exactly the first `k` writes of the 24-write sequence
appended to the trace: nothing is issued after the failed write and nothing
is issued to undo the `k - 1` writes already made. -/
theorem set_thresholds_aborts (T : Transport) (touch release : Nat) (s : Dev)
    (k : Nat) (e : esp_err_t) (hlt : release < touch) (hk1 : 1 ≤ k) (hk : k ≤ 24)
    (he : e ≠ ESP_OK)
    (hf : FailsFirstAt T s.trace (thresholdWrites touch release) (k - 1) e) :
    mpr121_set_thresholds T touch release s =
      (e, Dev.mk (s.trace ++ (thresholdWrites touch release).take k) s.slept_ms) ∧
    ((thresholdWrites touch release).take k).length = k ∧
    (∀ op ∈ (thresholdWrites touch release).take k, op.isWrite = true) := by
  have hlen : (thresholdWrites touch release).length = 24 := rfl
  have hpos : k - 1 < (thresholdWrites touch release).length := by omega
  have h := Issues.set_thresholds T touch release hlt s
  unfold Follows at h
  rw [issue_first_failure T e he _ s.trace _ hpos hf] at h
  have hk' : k - 1 + 1 = k := by omega
  rw [hk'] at h
  have hs := set_thresholds_slept T touch release s
  refine ⟨?_, ?_, ?_⟩
  · apply Prod.ext
    · exact h.1
    · cases hr : (mpr121_set_thresholds T touch release s).2 with
      | mk tr sl =>
        rw [hr] at h hs
        simp only at h hs
        simp only [h.2, hs]
  · rw [List.length_take, hlen]; omega
  · intro op hop
    have hop2 := List.mem_of_mem_take hop
    simp only [thresholdWrites, List.mem_flatMap, List.mem_range, List.mem_cons,
      List.mem_singleton, List.not_mem_nil, or_false] at hop2
    obtain ⟨i, _, hop2⟩ := hop2
    rcases hop2 with rfl | rfl <;> rfl

theorem set_thresholds_aborts_witness :
    mpr121_set_thresholds (failAt 2 (-1)) 0x0F 0x0A Dev.init =
      (-1, Dev.mk [BusOp.write 0x41 0x0F, BusOp.write 0x42 0x0A, BusOp.write 0x43 0x0F] 0) :=
  (set_thresholds_aborts (failAt 2 (-1)) 0x0F 0x0A Dev.init 3 (-1) (by decide) (by decide)
    (by decide) (by decide) (failAt_failsFirstAt 2 (-1) _ (by decide))).1

/-- C9: the wake token as a two-state machine.  From `Empty`, two handler
runs for the interrupt pin with the line low and no take in between leave the
token `Signaled`; the next take succeeds and empties it, and a second take
without a further edge finds it `Empty` and does not succeed.  A handler run
on a token that is already `Signaled`, like the give itself, changes nothing.
The token created by `mpr121_irq_init` starts `Empty`. -/
theorem wake_coalescing :
    mpr121_irq_handler MPR121_INT_PIN 0 (some WakeToken.Empty) = some WakeToken.Signaled ∧
    mpr121_irq_handler MPR121_INT_PIN 0
      (mpr121_irq_handler MPR121_INT_PIN 0 (some WakeToken.Empty)) = some WakeToken.Signaled ∧
    xSemaphoreTake WakeToken.Signaled = (true, WakeToken.Empty) ∧
    xSemaphoreTake (xSemaphoreTake WakeToken.Signaled).2 = (false, WakeToken.Empty) ∧
    xSemaphoreGiveFromISR WakeToken.Signaled = (false, WakeToken.Signaled) ∧
    (∀ arg level, mpr121_irq_handler arg level (some WakeToken.Signaled)
      = some WakeToken.Signaled) ∧
    mpr121_irq_init ESP_OK true = (ESP_OK, some WakeToken.Empty) := by
  refine ⟨rfl, rfl, rfl, rfl, rfl, ?_, rfl⟩
  intro arg level
  by_cases hc : arg % 2 ^ 32 = MPR121_INT_PIN ∧ level = 0
  · simp only [mpr121_irq_handler, if_pos hc, xSemaphoreGiveFromISR]
  · simp only [mpr121_irq_handler, if_neg hc]

/-- C10: for an electrode `e` in 0..11, `mpr121_read_baseline` adds exactly
one operation to the trace, a read of register `0x1E + e`, which lies in
0x1E..0x29 and so inside the baseline zone 0x1E..0x2A; it issues no write.  It
returns the code the transport gave to that read, whatever it is, and when
the read succeeds with byte `b` the output cell holds `b`. -/
theorem read_baseline_single_read (T : Transport) (s : Dev) (e old : Nat) (he : e ≤ 11) :
    (mpr121_read_baseline T e (some old) s).2.2 =
      Dev.mk (s.trace ++ [BusOp.read (0x1E + e)]) s.slept_ms ∧
    (mpr121_read_baseline T e (some old) s).1 =
      (T.i2c_master_transmit_receive s.trace (0x1E + e)).1 ∧
    (∀ b, b < 256 → T.i2c_master_transmit_receive s.trace (0x1E + e) = (ESP_OK, some b) →
      mpr121_read_baseline T e (some old) s =
        (ESP_OK, some b, Dev.mk (s.trace ++ [BusOp.read (0x1E + e)]) s.slept_ms)) ∧
    (MPR121_BASELINE_0 ≤ 0x1E + e ∧ 0x1E + e ≤ MPR121_BASELINE_11 ∧
      MPR121_BASELINE_11 ≤ MPR121_BASELINE_PROX) := by
  have ha : u8 (MPR121_BASELINE_0 + e) = 0x1E + e := by
    unfold u8 MPR121_BASELINE_0; omega
  have hne : ¬ e > 11 := by omega
  refine ⟨?_, ?_, ?_, ?_⟩
  · simp only [mpr121_read_baseline, if_neg hne, ha, mpr121_read_reg]
  · simp only [mpr121_read_baseline, if_neg hne, ha, mpr121_read_reg]
  · intro b hb hr
    have hmb : u8 b = b := Nat.mod_eq_of_lt hb
    simp only [mpr121_read_baseline, if_neg hne, ha, mpr121_read_reg, hr, hmb]
  · unfold MPR121_BASELINE_0 MPR121_BASELINE_11 MPR121_BASELINE_PROX; omega

theorem read_baseline_single_read_witness :
    mpr121_read_baseline (regTransport fun _ => 0xB4) 11 (some 0) Dev.init =
      (ESP_OK, some 0xB4, Dev.mk [BusOp.read 0x29] 0) :=
  (read_baseline_single_read (regTransport fun _ => 0xB4) Dev.init 11 0 (by decide)).2.2.1
    0xB4 (by decide) rfl

/-- C11, counterexample: the bound 0..1023 does not hold for every pair of
bytes.  For electrode 0, with register 0x04 read as 0x00 and register 0x05
read as 0x04, both reads succeeding, `mpr121_read_filtered` returns `ESP_OK`
and stores 1024, which is not in 0..1023; for electrode 11 with both registers
read as 0xFF it stores 65535.  The high byte enters the result whole. -/
theorem read_filtered_exceeds_1023 :
    mpr121_read_filtered (regTransport fun r => if r = 0x05 then 0x04 else 0x00) 0 (some 0)
        Dev.init =
      (ESP_OK, some 1024, Dev.mk [BusOp.read 0x04, BusOp.read 0x05] 0) ∧
    ¬ deref (mpr121_read_filtered (regTransport fun r => if r = 0x05 then 0x04 else 0x00) 0
        (some 0) Dev.init).2.1 ≤ 1023 ∧
    mpr121_read_filtered (regTransport fun _ => 0xFF) 11 (some 0) Dev.init =
      (ESP_OK, some 65535, Dev.mk [BusOp.read 0x1A, BusOp.read 0x1B] 0) := by
  refine ⟨by decide, by decide, by decide⟩

/-- C11, amended: for an electrode `e` in 0..11, if the reads of registers
`0x04 + 2*e` and `0x05 + 2*e` succeed with bytes `low` and `high`, then
`mpr121_read_filtered` returns `ESP_OK` and stores the unmasked
`(high << 8) | low`, a 16-bit value.  That value lies in 0..1023 whenever the
high byte is at most 3, that is whenever its upper six bits are zero as the
register map says of the chip; for any other high byte it is above 1023. -/
theorem read_filtered_range (T : Transport) (s : Dev) (e old low high : Nat)
    (he : e ≤ 11) (hlow : low < 256) (hhigh : high < 256)
    (hl : T.i2c_master_transmit_receive s.trace (0x04 + 2 * e) = (ESP_OK, some low))
    (hh : T.i2c_master_transmit_receive (s.trace ++ [BusOp.read (0x04 + 2 * e)])
            (0x05 + 2 * e) = (ESP_OK, some high)) :
    mpr121_read_filtered T e (some old) s =
      (ESP_OK, some ((high <<< 8) ||| low),
        Dev.mk (s.trace ++ [BusOp.read (0x04 + 2 * e), BusOp.read (0x05 + 2 * e)])
          s.slept_ms) ∧
    (high <<< 8) ||| low ≤ 65535 ∧
    (high ≤ 3 → (high <<< 8) ||| low ≤ 1023) ∧
    (4 ≤ high → 1023 < (high <<< 8) ||| low) := by
  have hu := u16_bytes high low hhigh hlow
  have hml : u8 low = low := Nat.mod_eq_of_lt hlow
  have hmh : u8 high = high := Nat.mod_eq_of_lt hhigh
  have ha : u8 (MPR121_FILTDATA_0L + e * 2) = 0x04 + 2 * e := by
    unfold u8 MPR121_FILTDATA_0L; omega
  have hb : u8 (MPR121_FILTDATA_0L + e * 2 + 1) = 0x05 + 2 * e := by
    unfold u8 MPR121_FILTDATA_0L; omega
  have hne : ¬ e > 11 := by omega
  have hv := shl8_or high low hlow
  refine ⟨?_, ?_, ?_, ?_⟩
  · simp only [mpr121_read_filtered, if_neg hne, ha, hb]
    simp [mpr121_read_reg, hl, hh, deref, hml, hmh, hu]
  · rw [hv]; omega
  · intro h3; rw [hv]; omega
  · intro h4; rw [hv]; omega

theorem read_filtered_range_witness :
    mpr121_read_filtered (regTransport fun r => if r = 0x0E then 0xFF else 0x03) 5 (some 0)
        Dev.init =
      (ESP_OK, some 1023, Dev.mk [BusOp.read 0x0E, BusOp.read 0x0F] 0) ∧
    (0x03 <<< 8) ||| 0xFF ≤ 1023 :=
  ⟨(read_filtered_range (regTransport fun r => if r = 0x0E then 0xFF else 0x03) Dev.init
      5 0 0xFF 0x03 (by decide) (by decide) (by decide) rfl rfl).1,
   (read_filtered_range (regTransport fun r => if r = 0x0E then 0xFF else 0x03) Dev.init
      5 0 0xFF 0x03 (by decide) (by decide) (by decide) rfl rfl).2.2.1 (by decide)⟩

end MPR121
